import Mathlib

/-!
Verification of the reference-resolution engine and document flattener of
`Getdata.py` (functions `get_flattened_job_data` and `flatten_nested_document`).

Documents are modelled as ordered association lists from field names to values,
mirroring Python `dict` insertion-order semantics; the accessor (`db`) is a
record of effectful operations returning `Except String α`, mirroring the fact
that every database call may raise an exception that the top-level handler of
`get_flattened_job_data` turns into an empty result list.
-/

namespace Getdata

/-- Values stored in documents: scalars (string, int, bool, null), MongoDB
ObjectIds, nested documents (Python `dict`, modelled as an ordered association
list), and arrays (Python `list`). -/
inductive Value where
  | vstr (s : String)
  | vint (n : Int)
  | vbool (b : Bool)
  | vnull
  | oid (s : String)
  | vdoc (fields : List (String × Value))
  | varr (elems : List Value)
deriving Repr

/-- A document is an ordered association list, mirroring a Python `dict`
(insertion order preserved, keys unique in well-formed documents). -/
abbrev Document := List (String × Value)

/-- Python `d[k]` / `d.get(k)`: first (and in a well-formed dict, only)
binding of `k`. -/
def getField : Document → String → Option Value
  | [], _ => none
  | (k1, v) :: rest, k => if k1 = k then some v else getField rest k

/-- Python `d[k] = v` on a dict: overwrite in place if the key exists
(keeping its position), otherwise append at the end. -/
def setField : Document → String → Value → Document
  | [], k, v => [(k, v)]
  | (k1, v1) :: rest, k, v =>
    if k1 = k then (k, v) :: rest else (k1, v1) :: setField rest k v

/-- Python `s.endswith(suffix)`. -/
def pyEndsWith (s suf : String) : Bool :=
  List.isSuffixOf suf.data s.data

/-- Python `s[:-n]` for `n ≤ len(s)` (the only way it is used in the source:
the string is known to end with a suffix of length `n`). -/
def pyDropRight (s : String) (n : Nat) : String :=
  String.mk (s.data.take (s.data.length - n))

/-- Python `s.lower()`: lower-case every character. -/
def pyLower (s : String) : String :=
  String.mk (s.data.map Char.toLower)

/-- Python `s[0].upper() + s[1:]`: capitalises the first character and raises
`IndexError` when the string is empty (`s[0]` on `""`). -/
def pyCapitalizeFirst (s : String) : Except String String :=
  match s.data with
  | [] => Except.error "IndexError: string index out of range"
  | c :: cs => Except.ok (String.mk (Char.toUpper c :: cs))

/-- The reference-field guard of `Getdata.py` lines 51 and 87: a field is
processed iff `(key.endswith('ID') and key != '_id') or key.endswith('IDs')`. -/
def isRefKey (k : String) : Bool :=
  (pyEndsWith k "ID" && k != "_id") || pyEndsWith k "IDs"

/-- Base-name extraction of lines 55-60: `IDs` keys drop three characters and
are array references, otherwise two characters are dropped (single
reference). -/
def refBase (k : String) : String × Bool :=
  if pyEndsWith k "IDs" then (pyDropRight k 3, true) else (pyDropRight k 2, false)

/-- The name under which a resolved reference is attached (lines 74 and 81):
`base_name.lower()`, with `"s"` appended for an array reference. -/
def refFieldName (k : String) : String :=
  if (refBase k).2 then pyLower (refBase k).1 ++ "s" else pyLower (refBase k).1

/-- The collection accessor: every operation can raise (modelled as
`Except.error`).  `aggregate` is `list(db.Job.aggregate([{"$limit": limit}]))`,
`list_collection_names` is `db.list_collection_names()`, `find_one` is
`db[coll].find_one({"_id": v})` and `find` is
`list(db[coll].find({"_id": {"$in": ids}}))`. -/
structure DB where
  aggregate : Nat → Except String (List Document)
  list_collection_names : Except String (List String)
  find_one : String → Value → Except String (Option Document)
  find : String → List Value → Except String (List Document)

/-- Processing of one `(key, value)` field of a document, lines 49-118 of
`Getdata.py` (the level-1 and level-2 loop bodies are textually identical; the
only difference is what is done to a fetched single-reference document before
it is attached, passed here as `resolve`: at level 1 it is the level-2 loop,
at level 2 it is the identity).  Explicit `Except.error` propagation mirrors
Python exceptions travelling up to the single top-level handler. -/
def processField (resolve : Document → Except String Document) (db : DB)
    (cur : Document) (key : String) (value : Value) : Except String Document :=
  if !isRefKey key then Except.ok cur
  else
    match pyCapitalizeFirst (refBase key).1 with
    | Except.error e => Except.error e
    | Except.ok collection_name =>
      match db.list_collection_names with
      | Except.error e => Except.error e
      | Except.ok names =>
        if !names.contains collection_name then Except.ok cur
        else if (refBase key).2 then
          match value with
          | Value.varr ids =>
            match db.find collection_name ids with
            | Except.error e => Except.error e
            | Except.ok level1_docs =>
              Except.ok (setField cur (pyLower (refBase key).1 ++ "s")
                (Value.varr (level1_docs.map Value.vdoc)))
          | _ => Except.ok cur
        else
          match value with
          | Value.oid _ =>
            match db.find_one collection_name value with
            | Except.error e => Except.error e
            | Except.ok none => Except.ok cur
            | Except.ok (some level1_doc) =>
              if level1_doc.isEmpty then Except.ok cur
              else
                match resolve level1_doc with
                | Except.error e => Except.error e
                | Except.ok resolved =>
                  Except.ok (setField cur (pyLower (refBase key).1) (Value.vdoc resolved))
          | _ => Except.ok cur

/-- The `for key, value in list(doc.items())` loop: iterate over a snapshot of
the document's fields, threading the (mutated) document through. -/
def resolveFields (resolve : Document → Except String Document) (db : DB) :
    List (String × Value) → Document → Except String Document
  | [], cur => Except.ok cur
  | (key, value) :: rest, cur =>
    match processField resolve db cur key value with
    | Except.error e => Except.error e
    | Except.ok cur' => resolveFields resolve db rest cur'

/-- Depth-bounded resolution: depth 0 leaves the document untouched (a
document attached at the innermost level is never processed); depth `d+1` runs
the field loop, resolving fetched single-reference documents at depth `d`.
The source's level-1 loop with its inlined level-2 copy is `resolveDoc db 2`. -/
def resolveDoc (db : DB) : Nat → Document → Except String Document
  | 0, doc => Except.ok doc
  | d + 1, doc => resolveFields (resolveDoc db d) db doc doc

/-- The `for job in jobs` loop of line 47: resolve each root document in
order; the first exception aborts the whole loop. -/
def resolveJobs (db : DB) : List Document → Except String (List Document)
  | [] => Except.ok []
  | job :: rest =>
    match resolveDoc db 2 job with
    | Except.error e => Except.error e
    | Except.ok j =>
      match resolveJobs db rest with
      | Except.error e => Except.error e
      | Except.ok rs => Except.ok (j :: rs)

/-- `get_flattened_job_data` (lines 25-123): fetch up to `limit` root `Job`
documents and resolve references two levels deep; any exception anywhere in
the batch is caught by the single `try`/`except` and yields `[]`. -/
def get_flattened_job_data (db : DB) (limit : Nat) : List Document :=
  match db.aggregate limit with
  | Except.error _ => []
  | Except.ok jobs =>
    match resolveJobs db jobs with
    | Except.error _ => []
    | Except.ok results => results

mutual

/-- `flatten_nested_document` (lines 133-171): flatten a value into `result`;
a non-dict input contributes nothing. -/
def flatten_nested_document (doc : Value) (pre : String) (result : Document) : Document :=
  match doc with
  | .vdoc fields => flattenFields fields pre result
  | _ => result

/-- The `for key, value in doc.items()` loop of `flatten_nested_document`:
nested dicts recurse with an extended prefix, lists always record their length
under `<key>_count` and, when the first element is a dict, flatten the first
three elements, scalars are copied through. -/
def flattenFields (fields : List (String × Value)) (pre : String) (result : Document) : Document :=
  match fields with
  | [] => result
  | (key, value) :: rest =>
    let new_key := if pre ≠ "" then pre ++ "_" ++ key else key
    let r1 :=
      match value with
      | .vdoc fs => flattenFields fs new_key result
      | .varr elems =>
        let rc := setField result (new_key ++ "_count") (.vint (Int.ofNat elems.length))
        match elems with
        | .vdoc _ :: _ => flattenItems elems 0 new_key rc
        | _ => rc
      | _ => setField result new_key value
    flattenFields rest pre r1

/-- The `for i, item in enumerate(value[:3])` loop: flatten list elements at
indices 0, 1 and 2 under prefix `<new_key>_<i>`; elements from index 3 on are
dropped. -/
def flattenItems (elems : List Value) (i : Nat) (new_key : String) (result : Document) : Document :=
  match elems with
  | [] => result
  | item :: rest =>
    if i < 3 then
      flattenItems rest (i + 1) new_key
        (flatten_nested_document item (new_key ++ "_" ++ toString i) result)
    else result

end

/-- Classifier used to state flattener claims: a scalar is any value that is
neither a nested document nor an array. -/
def isScalar : Value → Bool
  | .vdoc _ => false
  | .varr _ => false
  | _ => true

/-- The guard of line 164 of `Getdata.py`: `value and isinstance(value[0], dict)`
(the list is non-empty and its first element is a dict). -/
def firstElemIsDoc : List Value → Bool
  | .vdoc _ :: _ => true
  | _ => false

/-- Root document of the end-to-end scenario of the specification. -/
def jobDoc1 : Document := [("_id", Value.oid "j1"), ("jobLocationID", Value.oid "loc1")]

/-- `JobLocation` document of the end-to-end scenario. -/
def locDoc : Document :=
  [("_id", Value.oid "loc1"), ("customerID", Value.oid "c1"), ("name", Value.vstr "Site A")]

/-- `Customer` document of the end-to-end scenario. -/
def custDoc : Document := [("_id", Value.oid "c1"), ("name", Value.vstr "Acme")]

/-- Accessor for the end-to-end scenario: one `Job` root document, a
`JobLocation` collection holding `locDoc` and a `Customer` collection holding
`custDoc`. -/
def endToEndDB : DB where
  aggregate := fun _ => Except.ok [jobDoc1]
  list_collection_names := Except.ok ["Job", "JobLocation", "Customer"]
  find_one := fun c v =>
    match c, v with
    | "JobLocation", Value.oid s => if s = "loc1" then Except.ok (some locDoc) else Except.ok none
    | "Customer", Value.oid s => if s = "c1" then Except.ok (some custDoc) else Except.ok none
    | _, _ => Except.ok none
  find := fun _ _ => Except.ok []

/-- `locDoc` after its own `customerID` reference is resolved. -/
def resolvedLoc : Document :=
  [("_id", Value.oid "loc1"), ("customerID", Value.oid "c1"),
   ("name", Value.vstr "Site A"), ("customer", Value.vdoc custDoc)]

/-- The root document of the end-to-end scenario after resolution: the
embedded location lands under `joblocation` (the base name fully
lower-cased). -/
def resolvedJob1 : Document :=
  [("_id", Value.oid "j1"), ("jobLocationID", Value.oid "loc1"),
   ("joblocation", Value.vdoc resolvedLoc)]

/-- A `Member` document that itself carries a single reference, used to show
that elements of multi-reference arrays are never recursed into. -/
def memberDoc : Document := [("_id", Value.oid "m1"), ("customerID", Value.oid "c1")]

/-- Root document with a multi-reference field. -/
def jobDoc2 : Document := [("_id", Value.oid "j2"), ("memberIDs", Value.varr [Value.oid "m1"])]

/-- Accessor for the multi-reference scenario: the `Member` batch fetch
returns `memberDoc`, and the `Customer` collection could resolve
`memberDoc`'s `customerID` — but the code never asks. -/
def multiDB : DB where
  aggregate := fun _ => Except.ok [jobDoc2]
  list_collection_names := Except.ok ["Job", "Member", "Customer"]
  find_one := fun c v =>
    match c, v with
    | "Customer", Value.oid s => if s = "c1" then Except.ok (some custDoc) else Except.ok none
    | _, _ => Except.ok none
  find := fun c ids =>
    match c, ids with
    | "Member", [Value.oid s] => if s = "m1" then Except.ok [memberDoc] else Except.ok []
    | _, _ => Except.ok []

/-- Five one-field nested documents, the flattener example of the
specification. -/
def fiveDocs : List Value :=
  [Value.vdoc [("a", Value.vint 0)], Value.vdoc [("a", Value.vint 1)],
   Value.vdoc [("a", Value.vint 2)], Value.vdoc [("a", Value.vint 3)],
   Value.vdoc [("a", Value.vint 4)]]

/-- Accessor whose `list_collection_names` raises while a reference field of a
successfully aggregated root document is being resolved. -/
def listErrDB : DB where
  aggregate := fun _ => Except.ok [[("customerID", Value.oid "c1")]]
  list_collection_names := Except.error "network down"
  find_one := fun _ _ => Except.ok none
  find := fun _ _ => Except.ok []

/-- Accessor whose root aggregation raises. -/
def aggErrDB : DB where
  aggregate := fun _ => Except.error "aggregation failed"
  list_collection_names := Except.ok ["Job"]
  find_one := fun _ _ => Except.ok none
  find := fun _ _ => Except.ok []

/-- Accessor returning a root document with a field named exactly `"ID"`. -/
def idFieldDB : DB where
  aggregate := fun _ => Except.ok [[("ID", Value.vnull)]]
  list_collection_names := Except.ok ["Job"]
  find_one := fun _ _ => Except.ok none
  find := fun _ _ => Except.ok []

/-- Accessor whose batch `find` always raises, used to show that the `$in`
fetch IS attempted for an `IDs` field holding a sequence of
non-identifiers. -/
def findErrDB : DB where
  aggregate := fun _ => Except.ok []
  list_collection_names := Except.ok ["Job", "Member"]
  find_one := fun _ _ => Except.ok none
  find := fun _ _ => Except.error "find raised"

/-! Helper lemmas shared by the claim theorems below. -/

theorem toLower_ne_D : ∀ c : Char, Char.toLower c ≠ 'D' := by
  intro c h
  have h68 : (Char.toLower c).toNat = 68 := by rw [h]; rfl
  unfold Char.toLower at h68
  simp only [] at h68
  split at h68
  · rename_i hc
    have hv : (c.toNat + 32).isValidChar := Or.inl (by omega)
    rw [Char.ofNat, dif_pos hv] at h68
    simp [Char.ofNatAux, Char.toNat, UInt32.toNat, UInt32.val, BitVec.toNat_ofNatLt] at h68 hc
    omega
  · rename_i hc
    have : ¬ (c.toNat ≥ 65 ∧ c.toNat ≤ 90) := hc
    omega

theorem mem_D_of_endsWith_ID {k : String} (h : pyEndsWith k "ID" = true) : 'D' ∈ k.data := by
  have hs : "ID".data <:+ k.data := by
    rw [pyEndsWith] at h
    rwa [List.isSuffixOf_iff_suffix] at h
  exact hs.subset (by simp [String.data])

theorem mem_D_of_endsWith_IDs {k : String} (h : pyEndsWith k "IDs" = true) : 'D' ∈ k.data := by
  have hs : "IDs".data <:+ k.data := by
    rw [pyEndsWith] at h
    rwa [List.isSuffixOf_iff_suffix] at h
  exact hs.subset (by simp [String.data])

theorem not_mem_D_pyLower (s : String) : 'D' ∉ (pyLower s).data := by
  intro hmem
  rw [pyLower] at hmem
  simp only [String.data] at hmem
  rcases List.mem_map.mp hmem with ⟨c, _, hc⟩
  exact toLower_ne_D c hc

theorem not_mem_D_refFieldName (k : String) : 'D' ∉ (refFieldName k).data := by
  intro hmem
  rw [refFieldName] at hmem
  split at hmem
  · rw [String.data_append] at hmem
    rcases List.mem_append.mp hmem with h | h
    · exact not_mem_D_pyLower _ h
    · simp [String.data] at h
  · exact not_mem_D_pyLower _ hmem

theorem refFieldName_ne {k k0 : String} (hD : 'D' ∈ k0.data) : refFieldName k ≠ k0 := by
  intro h
  exact not_mem_D_refFieldName k (h ▸ hD)

theorem getField_setField_ne (d : Document) (w k : String) (v : Value) (h : k ≠ w) :
    getField (setField d w v) k = getField d k := by
  have hwk : w ≠ k := fun hwk => h hwk.symm
  induction d with
  | nil => simp [setField, getField, hwk]
  | cons p rest ih =>
    obtain ⟨k1, v1⟩ := p
    by_cases hk : k1 = w
    · subst hk
      simp [setField, getField, hwk]
    · by_cases hk1 : k1 = k
      · simp [setField, getField, hk, hk1, h]
      · simp [setField, getField, hk, hk1, ih]

theorem setField_fresh {d : Document} {k : String} (v : Value)
    (h : ∀ p ∈ d, p.1 ≠ k) : setField d k v = d ++ [(k, v)] := by
  induction d with
  | nil => rfl
  | cons p rest ih =>
    obtain ⟨k1, v1⟩ := p
    rw [setField, if_neg (h (k1, v1) (List.mem_cons_self _ _))]
    rw [List.cons_append]
    congr 1
    exact ih (fun p hp => h p (List.mem_cons_of_mem _ hp))

theorem processField_not_ref {resolve : Document → Except String Document} {db : DB}
    {cur : Document} {key : String} {value : Value} (h : isRefKey key = false) :
    processField resolve db cur key value = Except.ok cur := by
  rw [processField, if_pos]
  rw [h]
  rfl

theorem processField_ok_cases {resolve : Document → Except String Document} {db : DB}
    {cur : Document} {key : String} {value : Value} {r : Document}
    (h : processField resolve db cur key value = Except.ok r) :
    r = cur ∨ ∃ w, r = setField cur (refFieldName key) w := by
  rw [processField] at h
  repeat' split at h
  all_goals
    first
      | exact Or.inl (Except.ok.inj h).symm
      | exact Except.noConfusion h
      | (obtain rfl := (Except.ok.inj h).symm
         right
         have hname : refFieldName key = pyLower (refBase key).1 ++ "s" := by
           simp only [refFieldName]
           rw [if_pos (by assumption)]
         rw [hname]
         exact ⟨_, rfl⟩)
      | (obtain rfl := (Except.ok.inj h).symm
         right
         have hname : refFieldName key = pyLower (refBase key).1 := by
           simp only [refFieldName]
           rw [if_neg (by assumption)]
         rw [hname]
         exact ⟨_, rfl⟩)

theorem processField_multi {resolve : Document → Except String Document} {db : DB}
    {cur : Document} {key cname : String} {ids : List Value} {docs : List Document}
    {names : List String}
    (hIDs : pyEndsWith key "IDs" = true)
    (hcap : pyCapitalizeFirst (pyDropRight key 3) = Except.ok cname)
    (hnames : db.list_collection_names = Except.ok names)
    (hmem : names.contains cname = true)
    (hfind : db.find cname ids = Except.ok docs) :
    processField resolve db cur key (Value.varr ids) =
      Except.ok (setField cur (pyLower (pyDropRight key 3) ++ "s")
        (Value.varr (docs.map Value.vdoc))) := by
  have href : isRefKey key = true := by simp [isRefKey, hIDs]
  have hbase : refBase key = (pyDropRight key 3, true) := by simp [refBase, hIDs]
  have hmem' : cname ∈ names := by simpa using hmem
  simp [processField, href, hbase, hcap, hnames, hmem', hfind]

theorem processField_single_found {resolve : Document → Except String Document} {db : DB}
    {cur : Document} {key cname : String} {i : String} {d1 resolved : Document}
    {names : List String}
    (hID : pyEndsWith key "ID" = true) (hid : key ≠ "_id")
    (hIDs : pyEndsWith key "IDs" = false)
    (hcap : pyCapitalizeFirst (pyDropRight key 2) = Except.ok cname)
    (hnames : db.list_collection_names = Except.ok names)
    (hmem : names.contains cname = true)
    (hfind : db.find_one cname (Value.oid i) = Except.ok (some d1))
    (hne : d1.isEmpty = false)
    (hres : resolve d1 = Except.ok resolved) :
    processField resolve db cur key (Value.oid i) =
      Except.ok (setField cur (pyLower (pyDropRight key 2)) (Value.vdoc resolved)) := by
  have href : isRefKey key = true := by simp [isRefKey, hID, hid]
  have hbase : refBase key = (pyDropRight key 2, false) := by simp [refBase, hIDs]
  have hmem' : cname ∈ names := by simpa using hmem
  simp [processField, href, hbase, hcap, hnames, hmem', hfind, hne, hres]

theorem processField_single_none {resolve : Document → Except String Document} {db : DB}
    {cur : Document} {key cname : String} {i : String} {names : List String}
    (hID : pyEndsWith key "ID" = true) (hid : key ≠ "_id")
    (hIDs : pyEndsWith key "IDs" = false)
    (hcap : pyCapitalizeFirst (pyDropRight key 2) = Except.ok cname)
    (hnames : db.list_collection_names = Except.ok names)
    (hfind : db.find_one cname (Value.oid i) = Except.ok none) :
    processField resolve db cur key (Value.oid i) = Except.ok cur := by
  have href : isRefKey key = true := by simp [isRefKey, hID, hid]
  have hbase : refBase key = (pyDropRight key 2, false) := by simp [refBase, hIDs]
  cases hmem : names.contains cname <;>
    simp [processField, href, hbase, hcap, hnames, hmem, hfind]

theorem processField_malformed_single {resolve : Document → Except String Document} {db : DB}
    {cur : Document} {key cname : String} {value : Value} {names : List String}
    (hID : pyEndsWith key "ID" = true) (hid : key ≠ "_id")
    (hIDs : pyEndsWith key "IDs" = false)
    (hcap : pyCapitalizeFirst (pyDropRight key 2) = Except.ok cname)
    (hnames : db.list_collection_names = Except.ok names)
    (hval : ∀ s, value ≠ Value.oid s) :
    processField resolve db cur key value = Except.ok cur := by
  have href : isRefKey key = true := by simp [isRefKey, hID, hid]
  have hbase : refBase key = (pyDropRight key 2, false) := by simp [refBase, hIDs]
  cases value
  case oid s => exact absurd rfl (hval s)
  all_goals
    cases hmem : names.contains cname <;>
      simp [processField, href, hbase, hcap, hnames, hmem]

theorem processField_malformed_multi {resolve : Document → Except String Document} {db : DB}
    {cur : Document} {key cname : String} {value : Value} {names : List String}
    (hIDs : pyEndsWith key "IDs" = true)
    (hcap : pyCapitalizeFirst (pyDropRight key 3) = Except.ok cname)
    (hnames : db.list_collection_names = Except.ok names)
    (hval : ∀ l, value ≠ Value.varr l) :
    processField resolve db cur key value = Except.ok cur := by
  have href : isRefKey key = true := by simp [isRefKey, hIDs]
  have hbase : refBase key = (pyDropRight key 3, true) := by simp [refBase, hIDs]
  cases value
  case varr l => exact absurd rfl (hval l)
  all_goals
    cases hmem : names.contains cname <;>
      simp [processField, href, hbase, hcap, hnames, hmem]

theorem processField_preserves_D {resolve : Document → Except String Document} {db : DB}
    {cur : Document} {key : String} {value : Value} {r : Document}
    (h : processField resolve db cur key value = Except.ok r)
    {k : String} (hD : 'D' ∈ k.data) : getField r k = getField cur k := by
  rcases processField_ok_cases h with rfl | ⟨w, rfl⟩
  · rfl
  · exact getField_setField_ne _ _ _ _
      (fun he => not_mem_D_refFieldName key (he ▸ hD))

theorem resolveFields_preserves_D {resolve : Document → Except String Document} {db : DB} :
    ∀ (l : List (String × Value)) (cur r : Document),
      resolveFields resolve db l cur = Except.ok r →
      ∀ k : String, 'D' ∈ k.data → getField r k = getField cur k := by
  intro l
  induction l with
  | nil =>
    intro cur r h k hD
    obtain rfl := (Except.ok.inj h)
    rfl
  | cons p rest ih =>
    intro cur r h k hD
    obtain ⟨key, value⟩ := p
    rw [resolveFields] at h
    cases hpf : processField resolve db cur key value with
    | error e => rw [hpf] at h; exact Except.noConfusion h
    | ok cur' =>
      rw [hpf] at h
      rw [ih cur' r h k hD, processField_preserves_D hpf hD]

theorem resolveDoc_preserves_D {db : DB} :
    ∀ (d : Nat) (doc r : Document), resolveDoc db d doc = Except.ok r →
      ∀ k : String, 'D' ∈ k.data → getField r k = getField doc k := by
  intro d doc r h k hD
  cases d with
  | zero => obtain rfl := (Except.ok.inj h); rfl
  | succ d => exact resolveFields_preserves_D _ _ _ h k hD

theorem processField_key_ID (resolve : Document → Except String Document) (db : DB)
    (cur : Document) (value : Value) :
    processField resolve db cur "ID" value =
      Except.error "IndexError: string index out of range" := rfl

theorem processField_key_IDs (resolve : Document → Except String Document) (db : DB)
    (cur : Document) (value : Value) :
    processField resolve db cur "IDs" value =
      Except.error "IndexError: string index out of range" := rfl

theorem resolveFields_field_err {resolve : Document → Except String Document} {db : DB} :
    ∀ (l : List (String × Value)) (cur : Document),
      (∃ v, ("ID", v) ∈ l ∨ ("IDs", v) ∈ l) →
      ∃ e, resolveFields resolve db l cur = Except.error e := by
  intro l
  induction l with
  | nil => rintro cur ⟨v, h | h⟩ <;> cases h
  | cons p rest ih =>
    rintro cur ⟨v, h | h⟩ <;> obtain ⟨k0, v0⟩ := p
    · rcases List.mem_cons.mp h with heq | hmem
      · cases heq
        exact ⟨_, by rw [resolveFields, processField_key_ID]⟩
      · cases hpf : processField resolve db cur k0 v0 with
        | error e => exact ⟨e, by rw [resolveFields, hpf]⟩
        | ok cur' =>
          obtain ⟨e, he⟩ := ih cur' ⟨v, Or.inl hmem⟩
          exact ⟨e, by rw [resolveFields, hpf]; exact he⟩
    · rcases List.mem_cons.mp h with heq | hmem
      · cases heq
        exact ⟨_, by rw [resolveFields, processField_key_IDs]⟩
      · cases hpf : processField resolve db cur k0 v0 with
        | error e => exact ⟨e, by rw [resolveFields, hpf]⟩
        | ok cur' =>
          obtain ⟨e, he⟩ := ih cur' ⟨v, Or.inr hmem⟩
          exact ⟨e, by rw [resolveFields, hpf]; exact he⟩

theorem resolveJobs_field_err {db : DB} :
    ∀ jobs : List Document,
      (∃ job ∈ jobs, ∃ v, ("ID", v) ∈ job ∨ ("IDs", v) ∈ job) →
      ∃ e, resolveJobs db jobs = Except.error e := by
  intro jobs
  induction jobs with
  | nil => rintro ⟨job, hj, _⟩; cases hj
  | cons j rest ih =>
    rintro ⟨job, hj, hbad⟩
    rcases List.mem_cons.mp hj with heq | hmem
    · subst heq
      obtain ⟨e, he⟩ := @resolveFields_field_err (resolveDoc db 1) db job job hbad
      have h2 : resolveDoc db 2 job = Except.error e := he
      exact ⟨e, by rw [resolveJobs, h2]⟩
    · cases hres : resolveDoc db 2 j with
      | error e => exact ⟨e, by rw [resolveJobs, hres]⟩
      | ok j' =>
        obtain ⟨e, he⟩ := ih ⟨job, hmem, hbad⟩
        exact ⟨e, by rw [resolveJobs, hres, he]⟩

theorem flattenItems_stop {new_key : String} {result : Document} :
    ∀ (l : List Value) (i : Nat), 3 ≤ i → flattenItems l i new_key result = result := by
  intro l i h3
  cases l with
  | nil => rfl
  | cons x rest =>
    rw [flattenItems, if_neg (by omega)]

theorem flattenItems_take (new_key : String) :
    ∀ (l : List Value) (i : Nat) (result : Document),
      flattenItems l i new_key result = flattenItems (l.take (3 - i)) i new_key result := by
  intro l
  induction l with
  | nil => intro i r; rw [List.take_nil]
  | cons x rest ih =>
    intro i r
    by_cases hi : i < 3
    · have h3 : 3 - i = (3 - (i + 1)) + 1 := by omega
      rw [h3, List.take_succ_cons]
      rw [flattenItems, if_pos hi, flattenItems, if_pos hi]
      exact ih (i + 1) _
    · have h0 : 3 - i = 0 := by omega
      rw [h0, List.take_zero]
      rw [flattenItems_stop (x :: rest) i (by omega)]
      rfl

theorem flattenFields_array (k : String) (items : List Value) (pre : String) (result : Document) :
    flattenFields [(k, Value.varr items)] pre result =
      (if firstElemIsDoc items then
        flattenItems items 0 (if pre ≠ "" then pre ++ "_" ++ k else k)
          (setField result ((if pre ≠ "" then pre ++ "_" ++ k else k) ++ "_count")
            (Value.vint (Int.ofNat items.length)))
      else
        setField result ((if pre ≠ "" then pre ++ "_" ++ k else k) ++ "_count")
          (Value.vint (Int.ofNat items.length))) := by
  cases items with
  | nil => simp [flattenFields, firstElemIsDoc]
  | cons x rest => cases x <;> simp [flattenFields, firstElemIsDoc]

theorem flattenFields_flat :
    ∀ (fields : List (String × Value)) (acc : Document),
      (∀ p ∈ fields, isScalar p.2 = true) →
      (List.map Prod.fst fields).Nodup →
      (∀ kk ∈ List.map Prod.fst fields, ∀ q ∈ acc, q.1 ≠ kk) →
      flattenFields fields "" acc = acc ++ fields := by
  intro fields
  induction fields with
  | nil => intro acc _ _ _; simp [flattenFields]
  | cons p rest ih =>
    intro acc hsc hnd hfresh
    obtain ⟨k, v⟩ := p
    have hfr : ∀ q ∈ acc, q.1 ≠ k := fun q hq => hfresh k (by simp) q hq
    have hset : setField acc k v = acc ++ [(k, v)] := setField_fresh v hfr
    have hndr : (List.map Prod.fst rest).Nodup := by
      rw [List.map_cons] at hnd
      exact (List.nodup_cons.mp hnd).2
    have hkn : k ∉ List.map Prod.fst rest := by
      rw [List.map_cons] at hnd
      exact (List.nodup_cons.mp hnd).1
    have hfresh' : ∀ kk ∈ List.map Prod.fst rest, ∀ q ∈ acc ++ [(k, v)], q.1 ≠ kk := by
      intro kk hkk q hq
      rcases List.mem_append.mp hq with hqa | hqk
      · exact hfresh kk (List.mem_cons_of_mem _ hkk) q hqa
      · rcases List.mem_singleton.mp hqk with rfl
        intro hk1
        have hk1' : k = kk := hk1
        exact hkn (hk1' ▸ hkk)
    have hscr : ∀ q ∈ rest, isScalar q.2 = true :=
      fun q hq => hsc q (List.mem_cons_of_mem _ hq)
    have hstep : flattenFields ((k, v) :: rest) "" acc = flattenFields rest "" (setField acc k v) := by
      cases v <;> first
        | rfl
        | exact absurd (hsc (k, _) (List.mem_cons_self _ _)) (by simp [isScalar])
    rw [hstep, hset, ih (acc ++ [(k, v)]) hscr hndr hfresh']
    simp

theorem resolveFields_no_ref {resolve : Document → Except String Document} {db : DB} :
    ∀ (l : List (String × Value)) (cur : Document),
      (∀ p ∈ l, isRefKey p.1 = false) →
      resolveFields resolve db l cur = Except.ok cur := by
  intro l
  induction l with
  | nil => intro cur _; rfl
  | cons p rest ih =>
    intro cur h
    obtain ⟨k, v⟩ := p
    rw [resolveFields, processField_not_ref (h (k, v) (List.mem_cons_self _ _))]
    exact ih cur (fun q hq => h q (List.mem_cons_of_mem _ hq))

/-! Claim theorems. -/

/-- C1 counterexample: in the end-to-end scenario the resolver does NOT
attach a field named `jobLocation` (first character lower-cased, rest
unchanged), and flattening does NOT produce keys `jobLocation_name` or
`jobLocation_customer_name`: the attached field is `joblocation`
(`base_name.lower()` lower-cases every character). -/
theorem C1_counterexample :
    get_flattened_job_data endToEndDB 10 = [resolvedJob1] ∧
    getField resolvedJob1 "jobLocation" = none ∧
    getField (flatten_nested_document (Value.vdoc resolvedJob1) "" [])
      "jobLocation_name" = none ∧
    getField (flatten_nested_document (Value.vdoc resolvedJob1) "" [])
      "jobLocation_customer_name" = none :=
  ⟨rfl, rfl, rfl, rfl⟩

/-- C1 (amended): every successfully processed reference field either leaves
the document unchanged or attaches the result under `refFieldName` — the base
name with ALL characters lower-cased (Python `base_name.lower()`), with `"s"`
appended for a multi-reference; in the end-to-end scenario resolving
`jobLocationID` at depth 2 attaches `joblocation` with the customer embedded,
so flattening yields keys `joblocation_name` and `joblocation_customer_name`. -/
theorem C1_field_naming :
    (∀ (resolve : Document → Except String Document) (db : DB)
       (cur : Document) (key : String) (value : Value) (r : Document),
        processField resolve db cur key value = Except.ok r →
        r = cur ∨ ∃ w, r = setField cur (refFieldName key) w) ∧
    get_flattened_job_data endToEndDB 10 = [resolvedJob1] ∧
    getField (flatten_nested_document (Value.vdoc resolvedJob1) "" [])
      "joblocation_name" = some (Value.vstr "Site A") ∧
    getField (flatten_nested_document (Value.vdoc resolvedJob1) "" [])
      "joblocation_customer_name" = some (Value.vstr "Acme") :=
  ⟨fun _ _ _ _ _ _ h => processField_ok_cases h, rfl, rfl, rfl⟩

/-- C1 witness: the naming conjunct applied at a concrete successful
resolution of `jobLocationID`. -/
theorem C1_witness :
    [("joblocation", Value.vdoc locDoc)] = ([] : Document) ∨
      ∃ w, [("joblocation", Value.vdoc locDoc)] =
        setField [] (refFieldName "jobLocationID") w :=
  C1_field_naming.1 (fun d => Except.ok d) endToEndDB [] "jobLocationID"
    (Value.oid "loc1") [("joblocation", Value.vdoc locDoc)] rfl

/-- C2: a multi-reference field whose batch fetch succeeds always attaches a
field holding exactly the returned documents in the returned order — also when
the batch is empty — while a single-reference field whose point lookup finds
no document attaches nothing. -/
theorem C2_multi_always_single_missing :
    (∀ (resolve : Document → Except String Document) (db : DB) (cur : Document)
       (key cname : String) (ids : List Value) (docs : List Document)
       (names : List String),
        pyEndsWith key "IDs" = true →
        pyCapitalizeFirst (pyDropRight key 3) = Except.ok cname →
        db.list_collection_names = Except.ok names →
        names.contains cname = true →
        db.find cname ids = Except.ok docs →
        docs.length ≤ ids.length →
        processField resolve db cur key (Value.varr ids) =
          Except.ok (setField cur (pyLower (pyDropRight key 3) ++ "s")
            (Value.varr (docs.map Value.vdoc)))) ∧
    (∀ (resolve : Document → Except String Document) (db : DB) (cur : Document)
       (key cname i : String) (names : List String),
        pyEndsWith key "ID" = true → key ≠ "_id" → pyEndsWith key "IDs" = false →
        pyCapitalizeFirst (pyDropRight key 2) = Except.ok cname →
        db.list_collection_names = Except.ok names →
        db.find_one cname (Value.oid i) = Except.ok none →
        processField resolve db cur key (Value.oid i) = Except.ok cur) :=
  ⟨fun _ _ _ _ _ _ _ _ h1 h2 h3 h4 h5 _ => processField_multi h1 h2 h3 h4 h5,
   fun _ _ _ _ _ _ _ h1 h2 h3 h4 h5 h6 =>
     processField_single_none h1 h2 h3 h4 h5 h6⟩

/-- C2 witness: an empty batch result still attaches `members` as an empty
array, and a missing single reference attaches nothing. -/
theorem C2_witness :
    processField (fun d => Except.ok d) multiDB [] "memberIDs"
        (Value.varr [Value.oid "zz"]) =
      Except.ok (setField [] (pyLower (pyDropRight "memberIDs" 3) ++ "s")
        (Value.varr (List.map Value.vdoc []))) ∧
    processField (fun d => Except.ok d) endToEndDB [] "customerID"
        (Value.oid "nope") = Except.ok [] :=
  ⟨C2_multi_always_single_missing.1 (fun d => Except.ok d) multiDB []
     "memberIDs" "Member" [Value.oid "zz"] [] ["Job", "Member", "Customer"]
     rfl rfl rfl rfl rfl (by decide),
   C2_multi_always_single_missing.2 (fun d => Except.ok d) endToEndDB []
     "customerID" "Customer" "nope" ["Job", "JobLocation", "Customer"]
     rfl (by decide) rfl rfl rfl rfl⟩

/-- C3: any exception from the accessor — at the root aggregation or anywhere
during per-document resolution — is caught and makes
`get_flattened_job_data` return the empty list; no partial result set
escapes. -/
theorem C3_fail_closed :
    ∀ (db : DB) (limit : Nat),
      ((∃ e, db.aggregate limit = Except.error e) →
        get_flattened_job_data db limit = []) ∧
      (∀ (jobs : List Document) (e : String),
        db.aggregate limit = Except.ok jobs →
        resolveJobs db jobs = Except.error e →
        get_flattened_job_data db limit = []) := by
  intro db limit
  constructor
  · rintro ⟨e, he⟩
    simp [get_flattened_job_data, he]
  · intro jobs e hagg hres
    simp [get_flattened_job_data, hagg, hres]

/-- C3 witness: the fail-closed behaviour at a failing aggregation and at a
`list_collection_names` exception raised mid-resolution. -/
theorem C3_witness :
    get_flattened_job_data aggErrDB 7 = [] ∧
    get_flattened_job_data listErrDB 10 = [] :=
  ⟨(C3_fail_closed aggErrDB 7).1 ⟨"aggregation failed", rfl⟩,
   (C3_fail_closed listErrDB 10).2 [[("customerID", Value.oid "c1")]]
     "network down" rfl rfl⟩

/-- C4: resolution depth is bounded at 2 — depth-0 resolution is the
identity, so a document fetched for a single reference at the innermost level
(level 2) is attached exactly as fetched, never gaining embedded fields of
its own. -/
theorem C4_depth_bound :
    (∀ (db : DB) (doc : Document), resolveDoc db 0 doc = Except.ok doc) ∧
    (∀ (db : DB) (cur : Document) (key cname i : String) (d2 : Document)
       (names : List String),
      pyEndsWith key "ID" = true → key ≠ "_id" → pyEndsWith key "IDs" = false →
      pyCapitalizeFirst (pyDropRight key 2) = Except.ok cname →
      db.list_collection_names = Except.ok names →
      names.contains cname = true →
      db.find_one cname (Value.oid i) = Except.ok (some d2) →
      d2.isEmpty = false →
      processField (resolveDoc db 0) db cur key (Value.oid i) =
        Except.ok (setField cur (pyLower (pyDropRight key 2)) (Value.vdoc d2))) :=
  ⟨fun _ _ => rfl,
   fun _ _ _ _ _ _ _ h1 h2 h3 h4 h5 h6 h7 h8 =>
     processField_single_found h1 h2 h3 h4 h5 h6 h7 h8 rfl⟩

/-- C4 witness: at depth 0 a fetched customer document is attached
unchanged. -/
theorem C4_witness :
    processField (resolveDoc endToEndDB 0) endToEndDB [] "customerID"
        (Value.oid "c1") =
      Except.ok (setField [] (pyLower (pyDropRight "customerID" 2))
        (Value.vdoc custDoc)) :=
  C4_depth_bound.2 endToEndDB [] "customerID" "Customer" "c1" custDoc
    ["Job", "JobLocation", "Customer"] rfl (by decide) rfl rfl rfl rfl rfl rfl

/-- C5 counterexample: a document fetched as an element of a multi-reference
array is NOT recursed into — `memberDoc` sits inside the resolved `members`
array still carrying its unresolved `customerID`, although the `Customer`
collection is known to the accessor and the lookup would have succeeded. -/
theorem C5_counterexample :
    get_flattened_job_data multiDB 10 =
      [[("_id", Value.oid "j2"), ("memberIDs", Value.varr [Value.oid "m1"]),
        ("members", Value.varr [Value.vdoc memberDoc])]] ∧
    multiDB.find_one "Customer" (Value.oid "c1") = Except.ok (some custDoc) ∧
    multiDB.list_collection_names =
      Except.ok ["Job", "Member", "Customer"] ∧
    getField memberDoc "customer" = none :=
  ⟨rfl, rfl, rfl, rfl⟩

/-- C5 (amended): the resolver recurses only into documents attached via a
single reference (the attached value is the fetched document resolved one
level deeper), while documents attached as elements of a multi-reference
array are attached exactly as fetched, for every possible deeper resolver. -/
theorem C5_recurse_single_only :
    (∀ (db : DB) (d : Nat) (cur : Document) (key cname i : String)
       (d1 d1' : Document) (names : List String),
      pyEndsWith key "ID" = true → key ≠ "_id" → pyEndsWith key "IDs" = false →
      pyCapitalizeFirst (pyDropRight key 2) = Except.ok cname →
      db.list_collection_names = Except.ok names →
      names.contains cname = true →
      db.find_one cname (Value.oid i) = Except.ok (some d1) →
      d1.isEmpty = false →
      resolveDoc db d d1 = Except.ok d1' →
      processField (resolveDoc db d) db cur key (Value.oid i) =
        Except.ok (setField cur (pyLower (pyDropRight key 2)) (Value.vdoc d1'))) ∧
    (∀ (resolve : Document → Except String Document) (db : DB) (cur : Document)
       (key cname : String) (ids : List Value) (docs : List Document)
       (names : List String),
        pyEndsWith key "IDs" = true →
        pyCapitalizeFirst (pyDropRight key 3) = Except.ok cname →
        db.list_collection_names = Except.ok names →
        names.contains cname = true →
        db.find cname ids = Except.ok docs →
        processField resolve db cur key (Value.varr ids) =
          Except.ok (setField cur (pyLower (pyDropRight key 3) ++ "s")
            (Value.varr (docs.map Value.vdoc)))) :=
  ⟨fun _ _ _ _ _ _ _ _ _ h1 h2 h3 h4 h5 h6 h7 h8 h9 =>
     processField_single_found h1 h2 h3 h4 h5 h6 h7 h8 h9,
   fun _ _ _ _ _ _ _ _ h1 h2 h3 h4 h5 =>
     processField_multi h1 h2 h3 h4 h5⟩

/-- C5 witness: the single-reference conjunct at the end-to-end location
(resolved one level deeper before attachment) and the multi-reference
conjunct at the member batch (attached as fetched). -/
theorem C5_witness :
    (processField (resolveDoc endToEndDB 1) endToEndDB [] "jobLocationID"
        (Value.oid "loc1") =
      Except.ok (setField [] (pyLower (pyDropRight "jobLocationID" 2))
        (Value.vdoc resolvedLoc))) ∧
    (processField (fun d => Except.ok d) multiDB [] "memberIDs"
        (Value.varr [Value.oid "m1"]) =
      Except.ok (setField [] (pyLower (pyDropRight "memberIDs" 3) ++ "s")
        (Value.varr (List.map Value.vdoc [memberDoc])))) :=
  ⟨C5_recurse_single_only.1 endToEndDB 1 [] "jobLocationID" "JobLocation"
     "loc1" locDoc resolvedLoc ["Job", "JobLocation", "Customer"]
     rfl (by decide) rfl rfl rfl rfl rfl rfl rfl,
   C5_recurse_single_only.2 (fun d => Except.ok d) multiDB [] "memberIDs"
     "Member" [Value.oid "m1"] [memberDoc] ["Job", "Member", "Customer"]
     rfl rfl rfl rfl rfl⟩

/-- C6 counterexample: an `IDs` field holding a sequence of non-identifiers
(`[1]` under `memberIDs`) is NOT skipped — `isinstance(value, list)` passes,
the batch fetch runs (it is really attempted: with an accessor whose `find`
raises, the exception surfaces) and a `members` field is attached to a
document that had none. -/
theorem C6_counterexample :
    processField (fun d => Except.ok d) multiDB [] "memberIDs"
        (Value.varr [Value.vint 1]) =
      Except.ok [("members", Value.varr [])] ∧
    getField [] "members" = none ∧
    processField (fun d => Except.ok d) findErrDB [] "memberIDs"
        (Value.varr [Value.vint 1]) = Except.error "find raised" :=
  ⟨rfl, rfl, rfl⟩

/-- C6 (amended): an `ID` field whose value is not a single identifier, and
an `IDs` field whose value is not a sequence at all, are skipped silently —
the document is returned unchanged for every accessor (so no fetch can have
been attempted) — and the field loop continues over the remaining siblings;
but an `IDs` field holding a sequence is never skipped on account of its
elements: even a sequence containing no identifier at all is passed to the
batch fetch as-is and the (possibly empty) result is attached. -/
theorem C6_malformed_skipped :
    (∀ (resolve : Document → Except String Document) (db : DB) (cur : Document)
       (key cname : String) (value : Value) (names : List String),
        pyEndsWith key "IDs" = true →
        pyCapitalizeFirst (pyDropRight key 3) = Except.ok cname →
        db.list_collection_names = Except.ok names →
        (∀ l, value ≠ Value.varr l) →
        processField resolve db cur key value = Except.ok cur) ∧
    (∀ (resolve : Document → Except String Document) (db : DB) (cur : Document)
       (key cname : String) (value : Value) (names : List String),
        pyEndsWith key "ID" = true → key ≠ "_id" → pyEndsWith key "IDs" = false →
        pyCapitalizeFirst (pyDropRight key 2) = Except.ok cname →
        db.list_collection_names = Except.ok names →
        (∀ i, value ≠ Value.oid i) →
        processField resolve db cur key value = Except.ok cur) ∧
    (∀ (resolve : Document → Except String Document) (db : DB) (cur : Document)
       (key : String) (value : Value) (rest : List (String × Value)),
        processField resolve db cur key value = Except.ok cur →
        resolveFields resolve db ((key, value) :: rest) cur =
          resolveFields resolve db rest cur) ∧
    (∀ (resolve : Document → Except String Document) (db : DB) (cur : Document)
       (key cname : String) (ids : List Value) (docs : List Document)
       (names : List String),
        pyEndsWith key "IDs" = true →
        pyCapitalizeFirst (pyDropRight key 3) = Except.ok cname →
        db.list_collection_names = Except.ok names →
        names.contains cname = true →
        db.find cname ids = Except.ok docs →
        (∀ i, Value.oid i ∉ ids) →
        processField resolve db cur key (Value.varr ids) =
          Except.ok (setField cur (pyLower (pyDropRight key 3) ++ "s")
            (Value.varr (docs.map Value.vdoc)))) :=
  ⟨fun _ _ _ _ _ _ _ h1 h2 h3 h4 => processField_malformed_multi h1 h2 h3 h4,
   fun _ _ _ _ _ _ _ h1 h2 h3 h4 h5 h6 =>
     processField_malformed_single h1 h2 h3 h4 h5 h6,
   fun _ _ _ _ _ _ h => by rw [resolveFields, h],
   fun _ _ _ _ _ _ _ _ h1 h2 h3 h4 h5 _ =>
     processField_multi h1 h2 h3 h4 h5⟩

/-- C6 witness: an integer under `memberIDs` and a string under `customerID`
are both skipped, the loop step over a malformed head field reduces to the
loop over the remaining fields, and a list of integers under `memberIDs` is
fetched and attached despite containing no identifier. -/
theorem C6_witness :
    processField (fun d => Except.ok d) multiDB [] "memberIDs"
      (Value.vint 3) = Except.ok [] ∧
    processField (fun d => Except.ok d) endToEndDB [] "customerID"
      (Value.vstr "oops") = Except.ok [] ∧
    resolveFields (fun d => Except.ok d) endToEndDB
        [("customerID", Value.vstr "oops")] [] =
      resolveFields (fun d => Except.ok d) endToEndDB [] [] ∧
    processField (fun d => Except.ok d) multiDB [] "memberIDs"
        (Value.varr [Value.vint 1]) =
      Except.ok (setField [] (pyLower (pyDropRight "memberIDs" 3) ++ "s")
        (Value.varr (List.map Value.vdoc []))) :=
  ⟨C6_malformed_skipped.1 (fun d => Except.ok d) multiDB [] "memberIDs"
     "Member" (Value.vint 3) ["Job", "Member", "Customer"] rfl rfl rfl
     (fun l h => Value.noConfusion h),
   C6_malformed_skipped.2.1 (fun d => Except.ok d) endToEndDB [] "customerID"
     "Customer" (Value.vstr "oops") ["Job", "JobLocation", "Customer"]
     rfl (by decide) rfl rfl rfl (fun i h => Value.noConfusion h),
   C6_malformed_skipped.2.2.1 (fun d => Except.ok d) endToEndDB []
     "customerID" (Value.vstr "oops") []
     (C6_malformed_skipped.2.1 (fun d => Except.ok d) endToEndDB [] "customerID"
       "Customer" (Value.vstr "oops") ["Job", "JobLocation", "Customer"]
       rfl (by decide) rfl rfl rfl (fun i h => Value.noConfusion h)),
   C6_malformed_skipped.2.2.2 (fun d => Except.ok d) multiDB [] "memberIDs"
     "Member" [Value.vint 1] [] ["Job", "Member", "Customer"]
     rfl rfl rfl rfl rfl
     (fun i h => by rcases List.mem_singleton.mp h with h'; cases h')⟩

/-- C7: resolution only adds fields — every key ending in `ID`/`IDs` keeps
its value through resolution at any depth; a successfully resolved single
reference whose derived field name is fresh appends exactly one new binding,
holding the fetched document as the resolver leaves it (the source mutates the
fetched dict in place and attaches that same object); and a document with no
reference-convention fields is returned unchanged. -/
theorem C7_strictly_additive :
    (∀ (db : DB) (d : Nat) (doc r : Document),
      resolveDoc db d doc = Except.ok r →
      ∀ k : String, (pyEndsWith k "ID" || pyEndsWith k "IDs") = true →
      getField r k = getField doc k) ∧
    (∀ (resolve : Document → Except String Document) (db : DB) (cur : Document)
       (key cname i : String) (d1 resolved : Document) (names : List String),
      pyEndsWith key "ID" = true → key ≠ "_id" → pyEndsWith key "IDs" = false →
      pyCapitalizeFirst (pyDropRight key 2) = Except.ok cname →
      db.list_collection_names = Except.ok names →
      names.contains cname = true →
      db.find_one cname (Value.oid i) = Except.ok (some d1) →
      d1.isEmpty = false →
      resolve d1 = Except.ok resolved →
      (∀ q ∈ cur, q.1 ≠ pyLower (pyDropRight key 2)) →
      processField resolve db cur key (Value.oid i) =
        Except.ok (cur ++ [(pyLower (pyDropRight key 2), Value.vdoc resolved)])) ∧
    (∀ (db : DB) (d : Nat) (doc : Document),
      (∀ p ∈ doc, isRefKey p.1 = false) →
      resolveDoc db d doc = Except.ok doc) := by
  refine ⟨?_, ?_, ?_⟩
  · intro db d doc r h k hk
    rcases Bool.or_eq_true _ _ ▸ hk with h1 | h2
    · exact resolveDoc_preserves_D d doc r h k (mem_D_of_endsWith_ID h1)
    · exact resolveDoc_preserves_D d doc r h k (mem_D_of_endsWith_IDs h2)
  · intro resolve db cur key cname i d1 resolved names h1 h2 h3 h4 h5 h6 h7 h8 h9 hfresh
    rw [processField_single_found h1 h2 h3 h4 h5 h6 h7 h8 h9,
      setField_fresh _ hfresh]
  · intro db d doc h
    cases d with
    | zero => rfl
    | succ d => exact resolveFields_no_ref doc doc h

/-- C7 witness: the three conjuncts at the end-to-end scenario — the
original `jobLocationID` binding survives resolution, the fresh attachment
appends exactly one binding, and a reference-free document passes through
unchanged. -/
theorem C7_witness :
    getField resolvedJob1 "jobLocationID" = getField jobDoc1 "jobLocationID" ∧
    processField (resolveDoc endToEndDB 1) endToEndDB [] "jobLocationID"
        (Value.oid "loc1") =
      Except.ok ([] ++ [(pyLower (pyDropRight "jobLocationID" 2),
        Value.vdoc resolvedLoc)]) ∧
    resolveDoc endToEndDB 2 [("name", Value.vstr "plain")] =
      Except.ok [("name", Value.vstr "plain")] :=
  ⟨C7_strictly_additive.1 endToEndDB 2 jobDoc1 resolvedJob1 rfl
     "jobLocationID" rfl,
   C7_strictly_additive.2.1 (resolveDoc endToEndDB 1) endToEndDB []
     "jobLocationID" "JobLocation" "loc1" locDoc resolvedLoc
     ["Job", "JobLocation", "Customer"] rfl (by decide) rfl rfl rfl rfl rfl rfl
     rfl (fun q hq => absurd hq (List.not_mem_nil q)),
   C7_strictly_additive.2.2 endToEndDB 2 [("name", Value.vstr "plain")]
     (fun p hp => by rcases List.mem_singleton.mp hp with rfl; rfl)⟩

theorem flattenFields_array_nodoc {k : String} {items : List Value}
    {pre : String} {result : Document} (h : firstElemIsDoc items = false) :
    flattenFields [(k, Value.varr items)] pre result =
      setField result ((if pre ≠ "" then pre ++ "_" ++ k else k) ++ "_count")
        (Value.vint (Int.ofNat items.length)) := by
  rw [flattenFields_array, h]
  rfl

theorem flattenFields_array_doc {k : String} {items : List Value}
    {pre : String} {result : Document} (h : firstElemIsDoc items = true) :
    flattenFields [(k, Value.varr items)] pre result =
      flattenItems (items.take 3) 0 (if pre ≠ "" then pre ++ "_" ++ k else k)
        (setField result ((if pre ≠ "" then pre ++ "_" ++ k else k) ++ "_count")
          (Value.vint (Int.ofNat items.length))) := by
  rw [flattenFields_array, h, if_pos rfl, flattenItems_take]

theorem firstElemIsDoc_congr {items items' : List Value}
    (hlen : items.length = items'.length) (htake : items.take 3 = items'.take 3) :
    firstElemIsDoc items = firstElemIsDoc items' := by
  cases items with
  | nil =>
    cases items' with
    | nil => rfl
    | cons y ys => simp at hlen
  | cons x xs =>
    cases items' with
    | nil => simp at hlen
    | cons y ys =>
      rw [show (3 : Nat) = 2 + 1 from rfl, List.take_succ_cons,
        List.take_succ_cons] at htake
      obtain ⟨rfl, -⟩ : x = y ∧ xs.take 2 = ys.take 2 :=
        ⟨by injection htake, by injection htake⟩
      cases x <;> rfl

/-- C8: flattening a sequence field always emits `<key>_count` equal to the
sequence length; only when the sequence is non-empty with a document first
element are the elements at indices 0, 1, 2 additionally flattened, and
elements beyond index 2 never influence the output (any two sequences of the
same length agreeing on their first three elements flatten identically); the
five-document example yields a count of 5 and sub-fields for indices 0-2
only. -/
theorem C8_array_truncation :
    (∀ (pre k : String) (items : List Value) (result : Document),
      firstElemIsDoc items = false →
      flattenFields [(k, Value.varr items)] pre result =
        setField result ((if pre ≠ "" then pre ++ "_" ++ k else k) ++ "_count")
          (Value.vint (Int.ofNat items.length))) ∧
    (∀ (pre k : String) (items : List Value) (result : Document),
      firstElemIsDoc items = true →
      flattenFields [(k, Value.varr items)] pre result =
        flattenItems (items.take 3) 0 (if pre ≠ "" then pre ++ "_" ++ k else k)
          (setField result
            ((if pre ≠ "" then pre ++ "_" ++ k else k) ++ "_count")
            (Value.vint (Int.ofNat items.length)))) ∧
    (∀ (pre k : String) (items items' : List Value) (result : Document),
      items.length = items'.length → items.take 3 = items'.take 3 →
      flattenFields [(k, Value.varr items)] pre result =
        flattenFields [(k, Value.varr items')] pre result) ∧
    flattenFields [("xs", Value.varr fiveDocs)] "" [] =
      [("xs_count", Value.vint 5), ("xs_0_a", Value.vint 0),
       ("xs_1_a", Value.vint 1), ("xs_2_a", Value.vint 2)] := by
  refine ⟨fun _ _ _ _ h => flattenFields_array_nodoc h,
    fun _ _ _ _ h => flattenFields_array_doc h, ?_, rfl⟩
  intro pre k items items' result hlen htake
  have hfe := firstElemIsDoc_congr hlen htake
  cases hfd : firstElemIsDoc items' with
  | false =>
    rw [flattenFields_array_nodoc (hfe.trans hfd),
      flattenFields_array_nodoc hfd, hlen]
  | true =>
    rw [flattenFields_array_doc (hfe.trans hfd), flattenFields_array_doc hfd,
      hlen, htake]

/-- C8 witness: the count-only conjunct on a scalar sequence, the take-3
conjunct on the five-document example, and the irrelevance conjunct on two
sequences differing only beyond index 2. -/
theorem C8_witness :
    flattenFields [("k", Value.varr [Value.vint 7])] "" [] =
      setField [] ((if ("" : String) ≠ "" then "" ++ "_" ++ "k" else "k")
        ++ "_count") (Value.vint (Int.ofNat 1)) ∧
    flattenFields [("xs", Value.varr fiveDocs)] "" [] =
      flattenItems (fiveDocs.take 3) 0
        (if ("" : String) ≠ "" then "" ++ "_" ++ "xs" else "xs")
        (setField [] ((if ("" : String) ≠ "" then "" ++ "_" ++ "xs" else "xs")
          ++ "_count") (Value.vint (Int.ofNat fiveDocs.length))) ∧
    flattenFields [("xs", Value.varr fiveDocs)] "" [] =
      flattenFields [("xs", Value.varr (fiveDocs.take 3 ++
        [Value.vnull, Value.vnull]))] "" [] :=
  ⟨C8_array_truncation.1 "" "k" [Value.vint 7] [] rfl,
   C8_array_truncation.2.1 "" "xs" fiveDocs [] rfl,
   C8_array_truncation.2.2.1 "" "xs" fiveDocs
     (fiveDocs.take 3 ++ [Value.vnull, Value.vnull]) [] rfl rfl⟩

/-- C9: flattening an already-flat document (all values scalar, keys unique
as in any Python dict) with the empty prefix returns exactly the input
bindings — same keys, same values. -/
theorem C9_flat_identity :
    ∀ doc : Document,
      (∀ p ∈ doc, isScalar p.2 = true) →
      (List.map Prod.fst doc).Nodup →
      flatten_nested_document (Value.vdoc doc) "" [] = doc := by
  intro doc hsc hnd
  have h : flattenFields doc "" [] = [] ++ doc :=
    flattenFields_flat doc [] hsc hnd
      (fun kk _ q hq => absurd hq (List.not_mem_nil q))
  simpa using h

/-- C9 witness: identity flattening of a concrete two-field scalar
document. -/
theorem C9_witness :
    flatten_nested_document
        (Value.vdoc [("a", Value.vint 1), ("b", Value.vstr "x")]) "" [] =
      [("a", Value.vint 1), ("b", Value.vstr "x")] :=
  C9_flat_identity [("a", Value.vint 1), ("b", Value.vstr "x")]
    (by intro p hp; rcases List.mem_cons.mp hp with rfl | hp
        · rfl
        · rcases List.mem_singleton.mp hp with rfl; rfl)
    (by simp)

/-- C10: a root document carrying a field named exactly `ID` or `IDs` makes
the base-name indexing (`base_name[0]`) raise inside the resolver's single
top-level handler, so the entire batch is discarded and
`get_flattened_job_data` returns the empty list. -/
theorem C10_empty_base_discards_batch :
    ∀ (db : DB) (limit : Nat) (jobs : List Document) (job : Document)
      (v : Value),
      db.aggregate limit = Except.ok jobs →
      job ∈ jobs →
      (("ID", v) ∈ job ∨ ("IDs", v) ∈ job) →
      get_flattened_job_data db limit = [] := by
  intro db limit jobs job v hagg hj hbad
  obtain ⟨e, he⟩ := @resolveJobs_field_err db jobs ⟨job, hj, v, hbad⟩
  simp [get_flattened_job_data, hagg, he]

/-- C10 witness: a batch whose only document has a field named `ID` is
discarded wholesale. -/
theorem C10_witness : get_flattened_job_data idFieldDB 10 = [] :=
  C10_empty_base_discards_batch idFieldDB 10 [[("ID", Value.vnull)]]
    [("ID", Value.vnull)] Value.vnull rfl (List.mem_singleton.mpr rfl)
    (Or.inl (List.mem_singleton.mpr rfl))

end Getdata
